import Mathlib

/-!
Verification of the APDU framing layer (`apdu.h`): `CommandApdu` builds an
ISO/IEC 7816-4 command byte sequence from a four-byte header and the Lc/Le
lengths, and `ResponseApdu` is a read-only view over a received response byte
sequence.  Bytes are modelled as `Nat` values; every place the C++ masks with
`0xff &` is rendered as `% 256`, and the `int8_t` return type of
`remainingBytes` is rendered as an explicit wrap into `Int`.
-/

namespace Apdu

/-- `constexpr size_t shortLcMax = std::numeric_limits<uint8_t>::max();` -/
def shortLcMax : Nat := 255

/-- `constexpr size_t shortLeMax = std::numeric_limits<uint8_t>::max() + 1;` -/
def shortLeMax : Nat := 256

/-- `constexpr size_t extendedLeMax = std::numeric_limits<uint16_t>::max() + 1;` -/
def extendedLeMax : Nat := 65536

/-- The state of a built command: the byte buffer `mCommand` plus the two
data-region iterators, modelled as indices into the buffer. -/
structure CommandApdu where
  mCommand : List Nat
  mDataBegin : Nat
  mDataEnd : Nat
deriving Repr, DecidableEq

/-- The bytes the constructor writes for the Lc field (`hasLc` branch: in
extended form a `0` filler and the high byte `0xff & (lc >> 8)`, then in both
forms the low byte `0xff & lc`); empty when `lc = 0`. -/
def lcField (lc le : Nat) : List Nat :=
  if lc > 0 then
    (if lc > shortLcMax ∨ le > shortLeMax then [0, (lc >>> 8) % 256] else []) ++ [lc % 256]
  else []

/-- The bytes the constructor writes for the Le field (`hasLe` branch: in
extended form a `0` filler when no Lc field was written, then the two
big-endian bytes with `le == extendedLeMax` encoded as zeros; in short form
the single byte with `le == shortLeMax` encoded as zero); empty when
`le = 0`. -/
def leField (lc le : Nat) : List Nat :=
  if le > 0 then
    if lc > shortLcMax ∨ le > shortLeMax then
      (if lc > 0 then [] else [0]) ++
        [if le = extendedLeMax then 0 else (le >>> 8) % 256,
         if le = extendedLeMax then 0 else le % 256]
    else
      [if le = shortLeMax then 0 else le % 256]
  else []

/-- The six-argument constructor `CommandApdu::CommandApdu(cla, ins, p1, p2, lc, le)`.
The C++ resizes a zero-filled buffer to `headerSize + lcSize + lc + leSize`
and then writes strictly left to right: the four header bytes, the Lc field,
the `lc` data bytes it skips over (left zero), and the Le field; the
sequential writes are rendered as list concatenation.  `mDataBegin` and
`mDataEnd` are the iterator positions recorded around the data region (the
buffer end when there is no data). -/
def CommandApdu.make (cla ins p1 p2 lc le : Nat) : CommandApdu :=
  let buf : List Nat := [cla, ins, p1, p2] ++ lcField lc le ++ List.replicate lc 0 ++ leField lc le
  { mCommand := buf
    mDataBegin := if lc > 0 then 4 + (lcField lc le).length else buf.length
    mDataEnd := if lc > 0 then 4 + (lcField lc le).length + lc else buf.length }

/-- The four-argument convenience constructor delegates with `lc = 0, le = 0`. -/
def CommandApdu.make4 (cla ins p1 p2 : Nat) : CommandApdu :=
  CommandApdu.make cla ins p1 p2 0 0

/-- `size_t CommandApdu::size() const` -/
def CommandApdu.size (c : CommandApdu) : Nat := c.mCommand.length

/-- `size_t CommandApdu::dataSize() const`: `std::distance(mDataBegin, mDataEnd)`. -/
def CommandApdu.dataSize (c : CommandApdu) : Nat := c.mDataEnd - c.mDataBegin

/-- The caller-side use of `dataBegin()`/`dataEnd()` the class documents:
writing a sequence of bytes into the buffer starting at the data-region
iterator. -/
def CommandApdu.writeData (c : CommandApdu) (bytes : List Nat) : CommandApdu :=
  { c with
    mCommand :=
      c.mCommand.take c.mDataBegin ++ bytes ++ c.mCommand.drop (c.mDataBegin + bytes.length) }

/-- Reading the data region `[dataBegin, dataEnd)` back out of the buffer. -/
def CommandApdu.readData (c : CommandApdu) : List Nat :=
  (c.mCommand.drop c.mDataBegin).take (c.mDataEnd - c.mDataBegin)

/-- `static constexpr size_t STATUS_SIZE = 2;` -/
def STATUS_SIZE : Nat := 2

/-- `static constexpr uint8_t BYTES_AVAILABLE = 0x61;` -/
def BYTES_AVAILABLE : Nat := 0x61

/-- `static constexpr uint8_t SW1_WARNING_NON_VOLATILE_MEMORY_UNCHANGED = 0x62;` -/
def SW1_WARNING_NON_VOLATILE_MEMORY_UNCHANGED : Nat := 0x62

/-- `static constexpr uint8_t SW1_WARNING_NON_VOLATILE_MEMORY_CHANGED = 0x63;` -/
def SW1_WARNING_NON_VOLATILE_MEMORY_CHANGED : Nat := 0x63

/-- `static constexpr uint8_t SW1_FIRST_EXECUTION_ERROR = 0x64;` -/
def SW1_FIRST_EXECUTION_ERROR : Nat := 0x64

/-- `static constexpr uint8_t SW1_LAST_EXECUTION_ERROR = 0x66;` -/
def SW1_LAST_EXECUTION_ERROR : Nat := 0x66

/-- `static constexpr uint8_t SW1_FIRST_CHECKING_ERROR = 0x67;` -/
def SW1_FIRST_CHECKING_ERROR : Nat := 0x67

/-- `static constexpr uint8_t SW1_LAST_CHECKING_ERROR = 0x6f;` -/
def SW1_LAST_CHECKING_ERROR : Nat := 0x6f

/-- `ResponseApdu` wraps a reference to the caller's byte sequence. -/
structure ResponseApdu where
  mData : List Nat
deriving Repr, DecidableEq

/-- `bool ok() const`: the distance from begin to end is at least `STATUS_SIZE`. -/
def ResponseApdu.ok (r : ResponseApdu) : Bool :=
  decide (STATUS_SIZE ≤ r.mData.length)

/-- `uint8_t sw1() const`: `*(std::end(mData) - 2)`. -/
def ResponseApdu.sw1 (r : ResponseApdu) : Nat :=
  r.mData.getD (r.mData.length - 2) 0

/-- `uint8_t sw2() const`: `*(std::end(mData) - 1)`. -/
def ResponseApdu.sw2 (r : ResponseApdu) : Nat :=
  r.mData.getD (r.mData.length - 1) 0

/-- `uint16_t status() const`: `(sw1 << 8) | sw2`. -/
def ResponseApdu.status (r : ResponseApdu) : Nat :=
  ((r.sw1 % 256) <<< 8 ||| (r.sw2 % 256)) % 65536

/-- Conversion of a byte value to the C++ `int8_t` it becomes on return
(two's-complement wrap). -/
def toInt8 (n : Nat) : Int :=
  if n % 256 < 128 then (n % 256 : Int) else (n % 256 : Int) - 256

/-- `int8_t remainingBytes() const`: `sw1() == BYTES_AVAILABLE ? sw2() : 0`,
with the result converted to `int8_t` by the return type. -/
def ResponseApdu.remainingBytes (r : ResponseApdu) : Int :=
  if r.sw1 = BYTES_AVAILABLE then toInt8 r.sw2 else 0

/-- `bool isWarning() const` -/
def ResponseApdu.isWarning (r : ResponseApdu) : Bool :=
  decide (r.sw1 = SW1_WARNING_NON_VOLATILE_MEMORY_UNCHANGED
    ∨ r.sw1 = SW1_WARNING_NON_VOLATILE_MEMORY_CHANGED)

/-- `bool isExecutionError() const` -/
def ResponseApdu.isExecutionError (r : ResponseApdu) : Bool :=
  decide (SW1_FIRST_EXECUTION_ERROR ≤ r.sw1 ∧ r.sw1 ≤ SW1_LAST_EXECUTION_ERROR)

/-- `bool isCheckingError() const` -/
def ResponseApdu.isCheckingError (r : ResponseApdu) : Bool :=
  decide (SW1_FIRST_CHECKING_ERROR ≤ r.sw1 ∧ r.sw1 ≤ SW1_LAST_CHECKING_ERROR)

/-- `bool isError() const`: `isExecutionError() || isCheckingError()`. -/
def ResponseApdu.isError (r : ResponseApdu) : Bool :=
  r.isExecutionError || r.isCheckingError

/-- `const_iterator dataBegin() const`: `std::begin(mData)`, index 0. -/
def ResponseApdu.dataBegin (_r : ResponseApdu) : Nat := 0

/-- `const_iterator dataEnd() const`: `std::end(mData) - STATUS_SIZE`. -/
def ResponseApdu.dataEnd (r : ResponseApdu) : Nat := r.mData.length - STATUS_SIZE

/-- `size_t dataSize() const`: `std::distance(dataBegin(), dataEnd())`. -/
def ResponseApdu.dataSize (r : ResponseApdu) : Nat := r.dataEnd - r.dataBegin

/-- The payload bytes the view exposes through `dataBegin()`/`dataEnd()`. -/
def ResponseApdu.data (r : ResponseApdu) : List Nat :=
  (r.mData.drop r.dataBegin).take (r.dataEnd - r.dataBegin)

end Apdu

namespace Apdu

theorem make_mCommand (cla ins p1 p2 lc le : Nat) :
    (CommandApdu.make cla ins p1 p2 lc le).mCommand =
      [cla, ins, p1, p2] ++ lcField lc le ++ List.replicate lc 0 ++ leField lc le := rfl

theorem make_mDataBegin_of_pos (cla ins p1 p2 lc le : Nat) (h : 0 < lc) :
    (CommandApdu.make cla ins p1 p2 lc le).mDataBegin = 4 + (lcField lc le).length := by
  simp [CommandApdu.make, h]

theorem make_mDataEnd_of_pos (cla ins p1 p2 lc le : Nat) (h : 0 < lc) :
    (CommandApdu.make cla ins p1 p2 lc le).mDataEnd = 4 + (lcField lc le).length + lc := by
  simp [CommandApdu.make, h]

/-- When an Lc field is present, the bytes before the data region are the
header followed by the Lc field. -/
theorem make_take_mDataBegin (cla ins p1 p2 lc le : Nat) (h : 0 < lc) :
    (CommandApdu.make cla ins p1 p2 lc le).mCommand.take
        (CommandApdu.make cla ins p1 p2 lc le).mDataBegin =
      [cla, ins, p1, p2] ++ lcField lc le := by
  rw [make_mCommand, make_mDataBegin_of_pos cla ins p1 p2 lc le h]
  have hassoc :
      [cla, ins, p1, p2] ++ lcField lc le ++ List.replicate lc 0 ++ leField lc le =
        ([cla, ins, p1, p2] ++ lcField lc le) ++
          (List.replicate lc 0 ++ leField lc le) := by
    simp
  rw [hassoc]
  exact List.take_left'
    (by simp only [List.length_append, List.length_cons, List.length_nil])

/-- The bytes after the header, Lc field and data region are the Le field. -/
theorem make_drop_after_data (cla ins p1 p2 lc le : Nat) :
    (CommandApdu.make cla ins p1 p2 lc le).mCommand.drop
        (4 + (lcField lc le).length + lc) = leField lc le := by
  rw [make_mCommand]
  exact List.drop_left'
    (by simp only [List.length_append, List.length_cons, List.length_nil,
          List.length_replicate])

/-- When an Lc field is present, the bytes after the data region are the Le
field. -/
theorem make_drop_mDataEnd (cla ins p1 p2 lc le : Nat) (h : 0 < lc) :
    (CommandApdu.make cla ins p1 p2 lc le).mCommand.drop
        (CommandApdu.make cla ins p1 p2 lc le).mDataEnd = leField lc le := by
  rw [make_mDataEnd_of_pos cla ins p1 p2 lc le h]
  exact make_drop_after_data cla ins p1 p2 lc le

/-- For a value fitting in 16 bits, masking the high shifted byte with `0xff`
is exactly the big-endian high digit. -/
theorem shiftRight8_mod (n : Nat) (h : n ≤ 65535) : (n >>> 8) % 256 = n / 256 := by
  rw [Nat.shiftRight_eq_div_pow]
  have h8 : (2 : Nat) ^ 8 = 256 := by norm_num
  rw [h8]
  omega

/-- C1: for every command built with class, instruction, parameter1, parameter2
and lengths Lc ≤ 65535 and Le ≤ 65536, the total encoded length equals
4 + (Lc-field size) + Lc + (Le-field size), where the Lc-field size is 0 if
Lc = 0, else 1 in short form or 3 in extended form, and the Le-field size is 0
if Le = 0, else 1 in short form, 2 in extended form with an Lc field present,
or 3 in extended form with no Lc field (extended form meaning Lc > 255 or
Le > 256). -/
theorem C1_total_length (cla ins p1 p2 lc le : Nat) (hlc : lc ≤ 65535) (hle : le ≤ 65536) :
    (CommandApdu.make cla ins p1 p2 lc le).size =
      4 + (if lc = 0 then 0 else if lc > 255 ∨ le > 256 then 3 else 1) + lc +
        (if le = 0 then 0
         else if lc > 255 ∨ le > 256 then (if lc = 0 then 3 else 2) else 1) := by
  unfold CommandApdu.make CommandApdu.size lcField leField
  simp only [shortLcMax, shortLeMax, extendedLeMax]
  split_ifs <;> simp <;> omega

/-- Witness for C1 at the concrete input (0x00, 0xA4, 0x04, 0x00, Lc = 2, Le = 256). -/
theorem C1_total_length_witness :
    (2 : Nat) ≤ 65535 ∧ (256 : Nat) ≤ 65536 ∧
      (CommandApdu.make 0x00 0xA4 0x04 0x00 2 256).size =
        4 + (if (2 : Nat) = 0 then 0 else if (2 : Nat) > 255 ∨ (256 : Nat) > 256 then 3 else 1) + 2 +
          (if (256 : Nat) = 0 then 0
           else if (2 : Nat) > 255 ∨ (256 : Nat) > 256 then (if (2 : Nat) = 0 then 3 else 2) else 1) :=
  ⟨by decide, by decide, C1_total_length 0x00 0xA4 0x04 0x00 2 256 (by decide) (by decide)⟩

/-- C2: for every command built with both lengths present (0 < Lc ≤ 65535,
0 < Le ≤ 65536), extended form is selected for the entire command if and
only if Lc > 255 or Le > 256: in that case the Lc field (the bytes between
the header and the data region) is the 3-byte extended encoding
`[0x00, hi, lo]` and the Le field (the bytes after the data region) is the
2-byte big-endian extended encoding, while otherwise both fields use their
1-byte short encodings — the two length fields never independently mix short
and extended forms. -/
theorem C2_uniform_form (cla ins p1 p2 lc le : Nat)
    (hlc0 : 0 < lc) (hle0 : 0 < le) (hlc : lc ≤ 65535) (hle : le ≤ 65536) :
    ((lc > 255 ∨ le > 256) →
      ((CommandApdu.make cla ins p1 p2 lc le).mCommand.take
          (CommandApdu.make cla ins p1 p2 lc le).mDataBegin).drop 4 =
        [0, lc / 256, lc % 256] ∧
      (CommandApdu.make cla ins p1 p2 lc le).mCommand.drop
          (CommandApdu.make cla ins p1 p2 lc le).mDataEnd =
        [if le = 65536 then 0 else le / 256, if le = 65536 then 0 else le % 256]) ∧
    (lc ≤ 255 ∧ le ≤ 256 →
      ((CommandApdu.make cla ins p1 p2 lc le).mCommand.take
          (CommandApdu.make cla ins p1 p2 lc le).mDataBegin).drop 4 = [lc % 256] ∧
      (CommandApdu.make cla ins p1 p2 lc le).mCommand.drop
          (CommandApdu.make cla ins p1 p2 lc le).mDataEnd =
        [if le = 256 then 0 else le % 256]) := by
  have htake := make_take_mDataBegin cla ins p1 p2 lc le hlc0
  have hdrop := make_drop_mDataEnd cla ins p1 p2 lc le hlc0
  have hdrop4 : ([cla, ins, p1, p2] ++ lcField lc le).drop 4 = lcField lc le :=
    List.drop_left' (by simp)
  constructor
  · intro hext
    constructor
    · rw [htake, hdrop4]
      simp [lcField, shortLcMax, shortLeMax, hlc0, hext, shiftRight8_mod lc hlc]
    · rw [hdrop]
      by_cases h6 : le = 65536
      · simp [leField, shortLcMax, shortLeMax, extendedLeMax, hle0, hext, hlc0, h6]
      · simp [leField, shortLcMax, shortLeMax, extendedLeMax, hle0, hext, hlc0, h6,
          shiftRight8_mod le (by omega)]
  · rintro ⟨h1, h2⟩
    have hns : ¬(lc > 255 ∨ le > 256) := by omega
    constructor
    · rw [htake, hdrop4]
      simp [lcField, shortLcMax, shortLeMax, hlc0, hns]
    · rw [hdrop]
      simp [leField, shortLcMax, shortLeMax, hle0, hns]

/-- Witness for C2 at the extended input (0x00, 0xA4, 0x04, 0x00, Lc = 300,
Le = 5): the Lc field is `[0x00, 0x01, 0x2C]` and the Le field the big-endian
`[0x00, 0x05]`. -/
theorem C2_uniform_form_witness :
    (0 : Nat) < 300 ∧ (0 : Nat) < 5 ∧ (300 : Nat) ≤ 65535 ∧ (5 : Nat) ≤ 65536 ∧
      ((300 : Nat) > 255 ∨ (5 : Nat) > 256) ∧
      (((CommandApdu.make 0x00 0xA4 0x04 0x00 300 5).mCommand.take
          (CommandApdu.make 0x00 0xA4 0x04 0x00 300 5).mDataBegin).drop 4 =
        [0, 300 / 256, 300 % 256] ∧
      (CommandApdu.make 0x00 0xA4 0x04 0x00 300 5).mCommand.drop
          (CommandApdu.make 0x00 0xA4 0x04 0x00 300 5).mDataEnd =
        [if (5 : Nat) = 65536 then 0 else 5 / 256,
         if (5 : Nat) = 65536 then 0 else 5 % 256]) :=
  ⟨by decide, by decide, by decide, by decide, by decide,
    (C2_uniform_form 0x00 0xA4 0x04 0x00 300 5 (by decide) (by decide) (by decide)
      (by decide)).1 (by decide)⟩

/-- C5: for every command built with 0 < Le ≤ 65536, the Le field (the bytes
after the header, Lc field and data region) is encoded as follows: in
extended form a 0x00 filler byte is emitted first if and only if no Lc field
was written, then the 2-byte big-endian Le value, except that Le = 65536 is
encoded as 0x00 0x00; in short form the single byte of Le, except that
Le = 256 is encoded as 0x00; and for Lc = 0 and Le ≤ 256 the encoded length
is 5 with the final byte equal to Le mod 256. -/
theorem C5_le_encoding (cla ins p1 p2 lc le : Nat) (hle0 : 0 < le) (hle : le ≤ 65536) :
    ((lc > 255 ∨ le > 256) →
      (CommandApdu.make cla ins p1 p2 lc le).mCommand.drop
          (4 + (lcField lc le).length + lc) =
        (if lc = 0 then [0] else []) ++
          [if le = 65536 then 0 else le / 256, if le = 65536 then 0 else le % 256]) ∧
    (¬(lc > 255 ∨ le > 256) →
      (CommandApdu.make cla ins p1 p2 lc le).mCommand.drop
          (4 + (lcField lc le).length + lc) =
        [if le = 256 then 0 else le % 256]) ∧
    (lc = 0 ∧ le ≤ 256 →
      (CommandApdu.make cla ins p1 p2 lc le).size = 5 ∧
      (CommandApdu.make cla ins p1 p2 lc le).mCommand.drop 4 = [le % 256]) := by
  have hdrop := make_drop_after_data cla ins p1 p2 lc le
  refine ⟨?_, ?_, ?_⟩
  · intro hext
    rw [hdrop]
    rcases Nat.eq_zero_or_pos lc with h0 | h0
    · have hgt : 256 < le := by omega
      by_cases h6 : le = 65536
      · simp [leField, shortLcMax, shortLeMax, extendedLeMax, hle0, hext, h0, h6, hgt]
      · simp [leField, shortLcMax, shortLeMax, extendedLeMax, hle0, hext, h0, h6, hgt,
          shiftRight8_mod le (by omega)]
    · have h0' : lc ≠ 0 := by omega
      by_cases h6 : le = 65536
      · simp [leField, shortLcMax, shortLeMax, extendedLeMax, hle0, hext, h0, h0', h6]
      · simp [leField, shortLcMax, shortLeMax, extendedLeMax, hle0, hext, h0, h0', h6,
          shiftRight8_mod le (by omega)]
  · intro hns
    rw [hdrop]
    simp [leField, shortLcMax, shortLeMax, hle0, hns]
  · rintro ⟨h0, h256⟩
    subst h0
    have hns : ¬((0 : Nat) > 255 ∨ le > 256) := by omega
    have hle256 : ¬(256 < le) := by omega
    constructor
    · simp [CommandApdu.make, CommandApdu.size, lcField, leField, shortLcMax,
        shortLeMax, hle0, hns, hle256]
    · have h4 := make_drop_after_data cla ins p1 p2 0 le
      simp only [lcField, gt_iff_lt, lt_irrefl, if_false, List.length_nil,
        Nat.add_zero] at h4
      rw [h4]
      by_cases h2 : le = 256
      · simp [leField, shortLcMax, shortLeMax, hle0, hns, h2]
      · simp [leField, shortLcMax, shortLeMax, hle0, hns, h2, hle256]

/-- Witness for C5 at (0x00, 0xB0, 0x00, 0x00, Lc = 0, Le = 256): short form,
total length 5, final byte 0x00. -/
theorem C5_le_encoding_witness :
    (0 : Nat) < 256 ∧ (256 : Nat) ≤ 65536 ∧
      ¬((0 : Nat) > 255 ∨ (256 : Nat) > 256) ∧
      ((CommandApdu.make 0x00 0xB0 0x00 0x00 0 256).mCommand.drop
          (4 + (lcField 0 256).length + 0) =
        [if (256 : Nat) = 256 then 0 else 256 % 256]) ∧
      ((CommandApdu.make 0x00 0xB0 0x00 0x00 0 256).size = 5 ∧
       (CommandApdu.make 0x00 0xB0 0x00 0x00 0 256).mCommand.drop 4 = [256 % 256]) :=
  ⟨by decide, by decide, by decide,
    (C5_le_encoding 0x00 0xB0 0x00 0x00 0 256 (by decide) (by decide)).2.1 (by decide),
    (C5_le_encoding 0x00 0xB0 0x00 0x00 0 256 (by decide) (by decide)).2.2
      ⟨rfl, by decide⟩⟩

/-- C6: for every command built with 255 < Lc ≤ 65535, extended form is used
and the Lc field — the bytes between the header and the data region,
occupying offsets 4 through 6 since the data region starts at offset 7 — is a
0x00 filler followed by the 2-byte big-endian value of Lc. -/
theorem C6_extended_lc_field (cla ins p1 p2 lc le : Nat)
    (h255 : 255 < lc) (hlc : lc ≤ 65535) :
    ((CommandApdu.make cla ins p1 p2 lc le).mCommand.take
        (CommandApdu.make cla ins p1 p2 lc le).mDataBegin).drop 4 =
      [0, lc / 256, lc % 256] ∧
    (CommandApdu.make cla ins p1 p2 lc le).mDataBegin = 7 := by
  have hlc0 : 0 < lc := by omega
  have hext : lc > 255 ∨ le > 256 := Or.inl h255
  constructor
  · rw [make_take_mDataBegin cla ins p1 p2 lc le hlc0]
    have hdrop4 : ([cla, ins, p1, p2] ++ lcField lc le).drop 4 = lcField lc le :=
      List.drop_left' (by simp)
    rw [hdrop4]
    simp [lcField, shortLcMax, shortLeMax, hlc0, hext, shiftRight8_mod lc hlc]
  · rw [make_mDataBegin_of_pos cla ins p1 p2 lc le hlc0]
    simp [lcField, shortLcMax, shortLeMax, hlc0, hext]

/-- Witness for C6 at Lc = 300: the Lc field is exactly [0x00, 0x01, 0x2C]. -/
theorem C6_extended_lc_field_witness :
    (255 : Nat) < 300 ∧ (300 : Nat) ≤ 65535 ∧
      (((CommandApdu.make 0x00 0xD6 0x00 0x00 300 0).mCommand.take
          (CommandApdu.make 0x00 0xD6 0x00 0x00 300 0).mDataBegin).drop 4 =
        [0x00, 0x01, 0x2C] ∧
      (CommandApdu.make 0x00 0xD6 0x00 0x00 300 0).mDataBegin = 7) :=
  ⟨by decide, by decide,
    C6_extended_lc_field 0x00 0xD6 0x00 0x00 300 0 (by decide) (by decide)⟩

/-- C7: for every command built with length Lc, the data region
`[dataBegin, dataEnd)` contains exactly Lc bytes (`dataSize() = lc`); writing
any sequence of Lc bytes into that region and reading the region back yields
exactly the written bytes; and when Lc = 0 both data iterators coincide with
the end of the command buffer. -/
theorem C7_data_roundtrip (cla ins p1 p2 lc le : Nat) (bytes : List Nat)
    (hb : bytes.length = lc) :
    (CommandApdu.make cla ins p1 p2 lc le).dataSize = lc ∧
    ((CommandApdu.make cla ins p1 p2 lc le).writeData bytes).readData = bytes ∧
    (lc = 0 →
      (CommandApdu.make cla ins p1 p2 lc le).mDataBegin =
        (CommandApdu.make cla ins p1 p2 lc le).size ∧
      (CommandApdu.make cla ins p1 p2 lc le).mDataEnd =
        (CommandApdu.make cla ins p1 p2 lc le).size) := by
  rcases Nat.eq_zero_or_pos lc with h0 | h0
  · subst h0
    have hbe : bytes = [] := List.length_eq_zero.mp hb
    subst hbe
    refine ⟨?_, ?_, fun _ => ⟨?_, ?_⟩⟩ <;>
      simp [CommandApdu.make, CommandApdu.dataSize, CommandApdu.writeData,
        CommandApdu.readData, CommandApdu.size]
  · have hbeg := make_mDataBegin_of_pos cla ins p1 p2 lc le h0
    have hend := make_mDataEnd_of_pos cla ins p1 p2 lc le h0
    refine ⟨?_, ?_, fun h => absurd (h ▸ h0) (lt_irrefl 0)⟩
    · rw [CommandApdu.dataSize, hbeg, hend]
      omega
    · have htake := make_take_mDataBegin cla ins p1 p2 lc le h0
      have hdropw : (CommandApdu.make cla ins p1 p2 lc le).mCommand.drop
          ((CommandApdu.make cla ins p1 p2 lc le).mDataBegin + bytes.length) =
            leField lc le := by
        rw [hbeg, hb]
        exact make_drop_after_data cla ins p1 p2 lc le
      simp only [CommandApdu.writeData, CommandApdu.readData]
      rw [htake, hdropw, hbeg, hend]
      have harith : 4 + (lcField lc le).length + lc - (4 + (lcField lc le).length) = lc := by
        omega
      rw [harith]
      have hassoc :
          ([cla, ins, p1, p2] ++ lcField lc le) ++ bytes ++ leField lc le =
            ([cla, ins, p1, p2] ++ lcField lc le) ++ (bytes ++ leField lc le) := by
        simp
      rw [hassoc,
        List.drop_left' (by simp only [List.length_append, List.length_cons,
          List.length_nil]),
        List.take_left' hb]

/-- Witness for C7 at Lc = 2 with data bytes [0x3F, 0x00]. -/
theorem C7_data_roundtrip_witness :
    ([0x3F, 0x00] : List Nat).length = 2 ∧
      ((CommandApdu.make 0x00 0xA4 0x04 0x00 2 256).dataSize = 2 ∧
       ((CommandApdu.make 0x00 0xA4 0x04 0x00 2 256).writeData [0x3F, 0x00]).readData =
         [0x3F, 0x00] ∧
       ((2 : Nat) = 0 →
         (CommandApdu.make 0x00 0xA4 0x04 0x00 2 256).mDataBegin =
           (CommandApdu.make 0x00 0xA4 0x04 0x00 2 256).size ∧
         (CommandApdu.make 0x00 0xA4 0x04 0x00 2 256).mDataEnd =
           (CommandApdu.make 0x00 0xA4 0x04 0x00 2 256).size)) :=
  ⟨by decide, C7_data_roundtrip 0x00 0xA4 0x04 0x00 2 256 [0x3F, 0x00] (by decide)⟩

/-- C4: building the command (0x00, 0xA4, 0x04, 0x00, Lc = 2, Le = 256) and
writing [0x3F, 0x00] into the data region [dataBegin, dataEnd) = [5, 7)
yields exactly [0x00, 0xA4, 0x04, 0x00, 0x02, 0x3F, 0x00, 0x00] — short-form
Le = 256 encoded as 0x00. -/
theorem C4_select_example :
    (CommandApdu.make 0x00 0xA4 0x04 0x00 2 256).mDataBegin = 5 ∧
    (CommandApdu.make 0x00 0xA4 0x04 0x00 2 256).mDataEnd = 7 ∧
    ((CommandApdu.make 0x00 0xA4 0x04 0x00 2 256).writeData [0x3F, 0x00]).mCommand =
      [0x00, 0xA4, 0x04, 0x00, 0x02, 0x3F, 0x00, 0x00] := by decide

/-- C3 (code bug): `remainingBytes()` is declared `int8_t`, so for the
response [0x61, 0x80] — sw1 = 0x61, sw2 = 0x80 = 128 — the returned value is
the two's-complement wrap -128 rather than the sw2 value 128 the claim (and
the function's purpose, a count of available response bytes) requires. -/
theorem C3_remainingBytes_wraps :
    (ResponseApdu.mk [0x61, 0x80]).sw1 = 0x61 ∧
    (ResponseApdu.mk [0x61, 0x80]).sw2 = 0x80 ∧
    (ResponseApdu.mk [0x61, 0x80]).remainingBytes = -128 ∧
    (ResponseApdu.mk [0x61, 0x80]).remainingBytes ≠ 0x80 := by decide

/-- C8: for every response view over at least 2 bytes, `isExecutionError()`
holds iff sw1 ∈ [0x64, 0x66], `isCheckingError()` holds iff sw1 ∈ [0x67, 0x6F],
and `isError()` holds iff one of the two does. -/
theorem C8_error_predicates (data : List Nat) (_h : 2 ≤ data.length) :
    ((ResponseApdu.mk data).isExecutionError = true ↔
      0x64 ≤ (ResponseApdu.mk data).sw1 ∧ (ResponseApdu.mk data).sw1 ≤ 0x66) ∧
    ((ResponseApdu.mk data).isCheckingError = true ↔
      0x67 ≤ (ResponseApdu.mk data).sw1 ∧ (ResponseApdu.mk data).sw1 ≤ 0x6f) ∧
    ((ResponseApdu.mk data).isError = true ↔
      (ResponseApdu.mk data).isExecutionError = true ∨
        (ResponseApdu.mk data).isCheckingError = true) := by
  refine ⟨?_, ?_, ?_⟩ <;>
    simp [ResponseApdu.isExecutionError, ResponseApdu.isCheckingError,
      ResponseApdu.isError, SW1_FIRST_EXECUTION_ERROR, SW1_LAST_EXECUTION_ERROR,
      SW1_FIRST_CHECKING_ERROR, SW1_LAST_CHECKING_ERROR]

/-- Witness for C8 over [0x6A, 0x82]: a checking error, not an execution
error. -/
theorem C8_error_predicates_witness :
    2 ≤ ([0x6A, 0x82] : List Nat).length ∧
      (((ResponseApdu.mk [0x6A, 0x82]).isExecutionError = true ↔
        0x64 ≤ (ResponseApdu.mk [0x6A, 0x82]).sw1 ∧
          (ResponseApdu.mk [0x6A, 0x82]).sw1 ≤ 0x66) ∧
      ((ResponseApdu.mk [0x6A, 0x82]).isCheckingError = true ↔
        0x67 ≤ (ResponseApdu.mk [0x6A, 0x82]).sw1 ∧
          (ResponseApdu.mk [0x6A, 0x82]).sw1 ≤ 0x6f) ∧
      ((ResponseApdu.mk [0x6A, 0x82]).isError = true ↔
        (ResponseApdu.mk [0x6A, 0x82]).isExecutionError = true ∨
          (ResponseApdu.mk [0x6A, 0x82]).isCheckingError = true)) :=
  ⟨by decide, C8_error_predicates [0x6A, 0x82] (by decide)⟩

/-- C9: for every backing byte sequence, `ok()` returns true iff the sequence
has at least 2 bytes; over [0x00] it is false and over [0x90, 0x00] true. -/
theorem C9_ok_iff (data : List Nat) :
    ((ResponseApdu.mk data).ok = true ↔ 2 ≤ data.length) ∧
    (ResponseApdu.mk [0x00]).ok = false ∧
    (ResponseApdu.mk [0x90, 0x00]).ok = true := by
  refine ⟨?_, by decide, by decide⟩
  simp [ResponseApdu.ok, STATUS_SIZE]

/-- C10: for every response view over at least 2 bytes, the warning set
{0x62, 0x63} and the error range [0x64, 0x6F] of sw1 are disjoint:
`isWarning()` and `isError()` are never both true, and neither are
`isExecutionError()` and `isCheckingError()`, so each status word is
classified as at most one of warning, execution error, or checking error. -/
theorem C10_classification_disjoint (data : List Nat) (_h : 2 ≤ data.length) :
    ¬((ResponseApdu.mk data).isWarning = true ∧
        (ResponseApdu.mk data).isError = true) ∧
    ¬((ResponseApdu.mk data).isExecutionError = true ∧
        (ResponseApdu.mk data).isCheckingError = true) := by
  constructor <;>
  · simp only [ResponseApdu.isWarning, ResponseApdu.isError,
      ResponseApdu.isExecutionError, ResponseApdu.isCheckingError,
      SW1_WARNING_NON_VOLATILE_MEMORY_UNCHANGED,
      SW1_WARNING_NON_VOLATILE_MEMORY_CHANGED, SW1_FIRST_EXECUTION_ERROR,
      SW1_LAST_EXECUTION_ERROR, SW1_FIRST_CHECKING_ERROR, SW1_LAST_CHECKING_ERROR,
      Bool.or_eq_true, decide_eq_true_eq, not_and]
    intro h1 h2
    omega

/-- Witness for C10 over the warning response [0x62, 0x00]. -/
theorem C10_classification_disjoint_witness :
    2 ≤ ([0x62, 0x00] : List Nat).length ∧
      (¬((ResponseApdu.mk [0x62, 0x00]).isWarning = true ∧
          (ResponseApdu.mk [0x62, 0x00]).isError = true) ∧
       ¬((ResponseApdu.mk [0x62, 0x00]).isExecutionError = true ∧
          (ResponseApdu.mk [0x62, 0x00]).isCheckingError = true)) :=
  ⟨by decide, C10_classification_disjoint [0x62, 0x00] (by decide)⟩

end Apdu
